import Mathlib

/-!
Verification development for the super_play repository.

Shallow embedding of:
  * the selector-candidate generation embedded in the extraction script of
    `project/core/elements.py` (the `js_script` string) and in the recording
    script of `project/core/recorder.py` (`getCandidates`),
  * the sensitivity classifiers of both scripts,
  * the post-processing done by `extract_elements`,
  * the page-identity tracker of `gen_food.py` (`get_or_create_page_id`),
  * the `ActionRecorder` state machine and its ndjson sink, together with an
    executable JSON serializer/parser modelling `JSON.stringify` /
    `json.dumps` / `json.loads` on the payloads this system exchanges.

JavaScript string semantics (`||` defaults, truthiness, `trim`,
`substring(0, n)`, `toLowerCase`, `includes`) are modelled by the `js*`
helpers below, operating on Lean `String`/`List Char`.
-/

/-- JS truthiness filter on an optional attribute value: `getAttribute`
returns `null` (here `none`) or a string; the empty string is falsy. -/
def jsTruthy : Option String → Option String
  | none => none
  | some s => if s = "" then none else some s

/-- JS `a || b` on strings: `a` if truthy (non-empty), else `b`. -/
def jsOr (a b : String) : String :=
  if a = "" then b else a

/-- JS `a || b` on optional strings (falsy = `null` or `""`). -/
def jsOrO (a b : Option String) : Option String :=
  match jsTruthy a with
  | some v => some v
  | none => jsTruthy b

/-- JS `s.substring(0, n)`. -/
def jsSubstring (s : String) (n : Nat) : String :=
  ⟨s.toList.take n⟩

/-- JS whitespace for `trim` (the common subset: space, tab, newline,
carriage return). -/
def jsIsWs (c : Char) : Bool :=
  c = ' ' ∨ c = '\t' ∨ c = '\n' ∨ c = '\r'

/-- JS `s.trim()`: strip leading and trailing whitespace. -/
def jsTrim (s : String) : String :=
  ⟨((s.toList.dropWhile jsIsWs).reverse.dropWhile jsIsWs).reverse⟩

/-- JS `s.toLowerCase()` (ASCII, which covers the attribute values compared). -/
def jsToLower (s : String) : String :=
  ⟨s.toList.map Char.toLower⟩

/-- JS `s.includes(sub)`: substring containment. -/
def jsIncludes (s sub : String) : Bool :=
  decide (sub.toList <:+: s.toList)

/-- One step of the ancestor walk shared by `getCssPath` / `getXPath`:
the node's (lowercased) tag, its `id` property (`""`/absent is falsy),
whether `parentElement` is non-null, the number of same-tag siblings among
the parent's children, and this node's 1-based index among them. -/
structure WalkNode where
  tag : String
  id : Option String
  hasParent : Bool
  sameTagSiblings : Nat
  idx : Nat
deriving DecidableEq

/-- One DOM element as seen by both page scripts: the attributes the scripts
read (via `getAttribute` or the reflected property, modelled as the same raw
string), its text, and the data the DOM walks consume (ancestor chain up to
but excluding `document.body`, head = the element itself; label texts as
found by `label[for=id]` lookup / `closest('label')`). -/
structure DomNode where
  tag : String := "div"
  id : Option String := none
  name : Option String := none
  placeholder : Option String := none
  type : Option String := none
  href : Option String := none
  role : Option String := none
  ariaLabel : Option String := none
  dataTestid : Option String := none
  dataTestIdVar : Option String := none
  dataTest : Option String := none
  autocomplete : Option String := none
  textContent : String := ""
  innerText : String := ""
  value : String := ""
  labelForText : Option String := none
  closestLabelText : Option String := none
  chain : List WalkNode := []
deriving DecidableEq

/-- One selector candidate: `strategy`, `selector`, optional `notes`. -/
structure Candidate where
  strategy : String
  selector : String
  notes : Option String
deriving DecidableEq

/-- `getCssPath(el, maxDepth = 3)`: walk up the chain, `#id` short-circuit
(break keeps the deeper part of the path), `:nth-child(n)` among same-tag
siblings when there are several; identical code in `elements.py` and in the
css-path fallback block of `recorder.py`. -/
def cssGo : List WalkNode → Nat → List String → List String
  | [], _, acc => acc
  | _ :: _, 0, acc => acc
  | n :: rest, Nat.succ fuel, acc =>
    match jsTruthy n.id with
    | some i => ("#" ++ i) :: acc
    | none =>
      let sel :=
        if n.hasParent ∧ n.sameTagSiblings > 1 then
          n.tag ++ ":nth-child(" ++ toString n.idx ++ ")"
        else n.tag
      cssGo rest fuel (sel :: acc)

def getCssPath (chain : List WalkNode) : String :=
  String.intercalate " > " (cssGo chain 3 [])

/-- `getXPath(el, maxDepth = 3)`: same walk, but an `id` ancestor returns
`//tag[@id="id"]` discarding the accumulated path, and siblings are indexed
`[n]`; only in `elements.py`. -/
def xpathGo : List WalkNode → Nat → List String → String
  | [], _, acc => "//" ++ String.intercalate "/" acc
  | _ :: _, 0, acc => "//" ++ String.intercalate "/" acc
  | n :: rest, Nat.succ fuel, acc =>
    match jsTruthy n.id with
    | some i => "//" ++ n.tag ++ "[@id=\"" ++ i ++ "\"]"
    | none =>
      let sel :=
        if n.hasParent ∧ n.sameTagSiblings > 1 then
          n.tag ++ "[" ++ toString n.idx ++ "]"
        else n.tag
      xpathGo rest fuel (sel :: acc)

def getXPath (chain : List WalkNode) : String :=
  xpathGo chain 3 []

/-- `getLabelText(el)` from `elements.py`: if `el.id` is truthy and a
`label[for=id]` exists, its trimmed text cut to 50 chars; else the enclosing
label's trimmed text cut to 50; else `null`. -/
def getLabelText (el : DomNode) : Option String :=
  match jsTruthy el.id, el.labelForText with
  | some _, some t => some (jsSubstring (jsTrim t) 50)
  | _, _ =>
    match el.closestLabelText with
    | some t => some (jsSubstring (jsTrim t) 50)
    | none => none

/-- The extraction script's `textContent` binding:
`(el.textContent || el.innerText || '').trim().substring(0, 50)`. -/
def extractorTextContent (el : DomNode) : String :=
  jsSubstring (jsTrim (jsOr (jsOr el.textContent el.innerText) "")) 50

/-- The extraction script's sensitivity test:
`attrs.type === 'password' ||
 (el.getAttribute('autocomplete') || '').toLowerCase().includes('password')`
(`attrs.type` is only set when the attribute value is truthy). -/
def extractorIsSensitive (el : DomNode) : Bool :=
  jsTruthy el.type == some "password"
    || jsIncludes (jsToLower (jsOr (el.autocomplete.getD "") "")) "password"

/-- The candidate tiers of the extraction script before its structural
fallbacks (priority tiers 1-7 of the spec). -/
def extractorBase (el : DomNode) : List Candidate :=
  let tag := el.tag
  let textContent := extractorTextContent el
  let c1 :=
    match jsTruthy el.dataTestid with
    | some v => [⟨"data-testid", "[data-testid=\"" ++ v ++ "\"]", none⟩]
    | none => []
  let c2 :=
    match jsTruthy el.dataTestIdVar with
    | some v => [⟨"data-test-id", "[data-test-id=\"" ++ v ++ "\"]", none⟩]
    | none => []
  let c3 :=
    match jsTruthy el.dataTest with
    | some v => [⟨"data-test", "[data-test=\"" ++ v ++ "\"]", none⟩]
    | none => []
  let c4 :=
    match jsTruthy el.id with
    | some v => [⟨"id", "#" ++ v, none⟩]
    | none => []
  let c5 :=
    match jsTruthy el.name with
    | some v => [⟨"name", tag ++ "[name=\"" ++ v ++ "\"]", none⟩]
    | none => []
  let c6 :=
    match jsTruthy el.ariaLabel with
    | some v => [⟨"aria-label", tag ++ "[aria-label=\"" ++ v ++ "\"]", none⟩]
    | none => []
  let c7 :=
    match jsTruthy el.role with
    | some r =>
      if textContent = "" then []
      else
        [⟨"role+name",
          "getByRole(\x27" ++ r ++ "\x27, \x7bname: \x27"
            ++ jsSubstring textContent 30 ++ "\x27\x7d)",
          some "Playwright getByRole"⟩]
    | none => []
  let c8 :=
    match getLabelText el with
    | some t =>
      if t = "" then []
      else
        [⟨"label-for", "getByLabel(\x27" ++ jsSubstring t 30 ++ "\x27)",
          some "Playwright getByLabel"⟩]
    | none => []
  let c9 :=
    match jsTruthy el.placeholder with
    | some v => [⟨"placeholder", tag ++ "[placeholder=\"" ++ v ++ "\"]", none⟩]
    | none => []
  c1 ++ c2 ++ c3 ++ c4 ++ c5 ++ c6 ++ c7 ++ c8 ++ c9

/-- The extraction script's full candidate generation (tiers 1-7, then the
css-path supplement added only while the list has fewer than 5 entries and
the path is truthy, then the xpath last resort when the list is empty). -/
def extractorCandidates (el : DomNode) : List Candidate :=
  let base := extractorBase el
  let cssPath := getCssPath el.chain
  let withCss :=
    if cssPath ≠ "" ∧ base.length < 5 then
      base ++ [⟨"css-path", cssPath, some "Fallback - pode ser frágil"⟩]
    else base
  if withCss.length = 0 then
    [⟨"xpath", getXPath el.chain, some "Último recurso - muito frágil"⟩]
  else withCss

/-- `isSensitiveInput(el)` from the recorder script:
`SENSITIVE_TYPES.includes((el.type || '').toLowerCase()) ||
 SENSITIVE_AUTOCOMPLETE.some(s => (el.autocomplete || '').toLowerCase().includes(s))`. -/
def isSensitiveInput (el : DomNode) : Bool :=
  let type := jsToLower (jsOr (el.type.getD "") "")
  let autocomplete := jsToLower (jsOr (el.autocomplete.getD "") "")
  (type == "password")
    || (jsIncludes autocomplete "password"
        || jsIncludes autocomplete "current-password"
        || jsIncludes autocomplete "new-password")

/-- The candidate tiers of the recorder script's `getCandidates` before its
fallback: single merged data-test tier (always labelled `data-testid`), id,
name, aria-label, role+text (text from `textContent` only), placeholder. -/
def getCandidatesBase (el : DomNode) : List Candidate :=
  let tag := el.tag
  let testid := jsOrO (jsOrO el.dataTestid el.dataTestIdVar) el.dataTest
  let c1 :=
    match testid with
    | some v => [⟨"data-testid", "[data-testid=\"" ++ v ++ "\"]", none⟩]
    | none => []
  let c2 :=
    match jsTruthy el.id with
    | some v => [⟨"id", "#" ++ v, none⟩]
    | none => []
  let c3 :=
    match jsTruthy el.name with
    | some v => [⟨"name", tag ++ "[name=\"" ++ v ++ "\"]", none⟩]
    | none => []
  let c4 :=
    match jsTruthy el.ariaLabel with
    | some v => [⟨"aria-label", tag ++ "[aria-label=\"" ++ v ++ "\"]", none⟩]
    | none => []
  let c5 :=
    match jsTruthy el.role with
    | some r =>
      let text := jsSubstring (jsTrim (jsOr el.textContent "")) 30
      if text = "" then []
      else
        [⟨"role+name",
          "getByRole(\x27" ++ r ++ "\x27, \x7bname: \x27" ++ text ++ "\x27\x7d)",
          some "Playwright getByRole"⟩]
    | none => []
  let c6 :=
    match jsTruthy el.placeholder with
    | some v => [⟨"placeholder", tag ++ "[placeholder=\"" ++ v ++ "\"]", none⟩]
    | none => []
  c1 ++ c2 ++ c3 ++ c4 ++ c5 ++ c6

/-- `getCandidates(el)` from the recorder script: the tiers above, then an
unconditional css-path fallback when nothing else matched. -/
def getCandidates (el : DomNode) : List Candidate :=
  let base := getCandidatesBase el
  if base.length = 0 then
    [⟨"css-path", getCssPath el.chain, some "Fallback"⟩]
  else base

example : jsIncludes "my-current-password" "password" = true := by decide
example : jsTruthy (some "") = none := by rfl

/-- Python truthiness of `el.get("isSensitive")`: the key may be absent
(`none`) or hold a JSON boolean. -/
def pyTruthyBool : Option Bool → Bool
  | some true => true
  | _ => false

/-- One element dictionary as held by `extract_elements` after
`page.evaluate`: the keys the Python code reads or writes. -/
structure PyElement where
  tag : String := "div"
  textPreview : Option String := none
  attrs : List (String × String) := []
  isSensitive : Option Bool := none
  value : Option String := none
  candidates : List Candidate := []
deriving DecidableEq

/-- The `pageSignals` object of the extraction script. -/
structure PageSignals where
  has_data_testid : Bool
  has_aria_roles : Bool
  likely_spa : Bool
deriving DecidableEq

/-- The structured result of `page.evaluate(js_script)`:
`result.get("pageSignals", {})` / `result.get("elements", [])` model the
possibly-missing keys (`none` stands for the `{}` default). -/
structure EvalPayload where
  pageSignals : Option PageSignals
  elements : List PyElement
deriving DecidableEq

/-- The dictionary `extract_elements` returns. -/
structure ExtractOutput where
  page_signals : Option PageSignals
  elements : List PyElement
deriving DecidableEq

/-- The masking loop body of `extract_elements`: when the element's
`isSensitive` is truthy, force `textPreview` to `"***"` and redact a
`value` entry when that key is present. -/
def maskStep (el : PyElement) : PyElement :=
  if pyTruthyBool el.isSensitive then
    { el with textPreview := some "***", value := el.value.map fun _ => "***" }
  else el

/-- The flag-removal loop body of `extract_elements`:
`el.pop("isSensitive", None)`. -/
def popIsSensitive (el : PyElement) : PyElement :=
  { el with isSensitive := none }

/-- `extract_elements(page, mask_sensitive)`, with the `page.evaluate` call
replaced by its outcome: `.ok payload` for a normal return, `.error msg`
for a thrown evaluation (the `except` branch). -/
def extract_elements (res : Except String EvalPayload)
    (mask_sensitive : Bool) : ExtractOutput :=
  match res with
  | .error _ => { page_signals := none, elements := [] }
  | .ok r =>
    let elements := r.elements
    let elements := if mask_sensitive then elements.map maskStep else elements
    let elements := elements.map popIsSensitive
    { page_signals := r.pageSignals, elements := elements }

/-- The `attrs` object built by the extraction script: the allow-listed
attributes then the `data-test*` variants, keeping only truthy values. -/
def extractorAttrs (el : DomNode) : List (String × String) :=
  List.filterMap (fun kv : String × Option String => kv.2.map fun v => (kv.1, v))
    [("id", jsTruthy el.id), ("name", jsTruthy el.name),
     ("placeholder", jsTruthy el.placeholder), ("type", jsTruthy el.type),
     ("href", jsTruthy el.href), ("role", jsTruthy el.role),
     ("aria-label", jsTruthy el.ariaLabel),
     ("data-testid", jsTruthy el.dataTestid),
     ("data-test-id", jsTruthy el.dataTestIdVar),
     ("data-test", jsTruthy el.dataTest)]

/-- The object the extraction script pushes per element
(`{tag, textPreview, attrs, isSensitive, candidates}` — note: no `value`
key; the script's `inputValue` binding is computed but never emitted).
The script's `seen`-set dedup uses `Math.random` and only decides which
elements are pushed, not what is pushed for them, so it is not modelled. -/
def jsElement (el : DomNode) : PyElement :=
  let textContent := extractorTextContent el
  { tag := el.tag
    textPreview := if textContent = "" then none else some textContent
    attrs := extractorAttrs el
    isSensitive := some (extractorIsSensitive el)
    value := none
    candidates := extractorCandidates el }

/-- `urllib.parse.urlunsplit`, as called through `urlunparse` below. -/
def urlunsplit (scheme netloc url query fragment : String) : String :=
  let url :=
    if netloc ≠ "" ∨ (url ≠ "" ∧ jsSubstring url 2 = "//") then
      "//" ++ netloc ++ (if url ≠ "" ∧ jsSubstring url 1 ≠ "/" then "/" ++ url else url)
    else url
  let url := if scheme ≠ "" then scheme ++ ":" ++ url else url
  let url := if query ≠ "" then url ++ "?" ++ query else url
  if fragment ≠ "" then url ++ "#" ++ fragment else url

/-- `urllib.parse.urlunparse`. -/
def urlunparse (scheme netloc url params query fragment : String) : String :=
  urlunsplit scheme netloc (if params ≠ "" then url ++ ";" ++ params else url)
    query fragment

/-- A raw URL, represented by its `urlparse` components (the tracker only
ever consumes the parse and reconstructions of it). -/
structure Url where
  scheme : String
  netloc : String
  path : String
  params : String
  query : String
  fragment : String
deriving DecidableEq

/-- The raw URL string, reconstructed from its components. -/
def Url.raw (u : Url) : String :=
  urlunparse u.scheme u.netloc u.path u.params u.query u.fragment

/-- `normalize_url(raw_url)` from `gen_food.py`: keep scheme, netloc,
path; drop params, query, fragment. -/
def normalize_url (u : Url) : String :=
  urlunparse u.scheme u.netloc u.path "" "" ""

/-- One value of the `pages_visited` dict. -/
structure PageEntry where
  pageId : Nat
  url : String
  title : String
  first_visit : String
deriving DecidableEq

/-- The tracker's session state: the `pages_visited` dict (insertion-ordered
association list keyed by normalized URL) and the `next_page_id` counter. -/
structure TrackerState where
  pages_visited : List (String × PageEntry)
  next_page_id : Nat
deriving DecidableEq

/-- Association-list lookup (dict access by key). -/
def assocFind (k : String) : List (String × PageEntry) → Option PageEntry
  | [] => none
  | (k', v) :: rest => if k' = k then some v else assocFind k rest

/-- The tracker's initial state: empty dict, `next_page_id = 1`. -/
def trackerInit : TrackerState :=
  { pages_visited := [], next_page_id := 1 }

/-- `get_or_create_page_id(raw_url, title)`; `now` stands for the
`datetime.now(timezone.utc).isoformat()` timestamp taken on a first visit.
Returns `((pageId, is_new), new state)`. -/
def get_or_create_page_id (s : TrackerState) (raw_url : Url)
    (title now : String) : (Nat × Bool) × TrackerState :=
  let normalized := normalize_url raw_url
  match assocFind normalized s.pages_visited with
  | some e => ((e.pageId, false), s)
  | none =>
    let page_id := s.next_page_id
    ((page_id, true),
      { pages_visited :=
          s.pages_visited
            ++ [(normalized,
                 { pageId := page_id, url := raw_url.raw, title := title,
                   first_visit := now })]
        next_page_id := page_id + 1 })

/-- Invariant of a reachable tracker state: recorded page ids are pairwise
distinct and all below the `next_page_id` counter (so a newly allocated id
is never a reuse). -/
def TrackerInv (s : TrackerState) : Prop :=
  (s.pages_visited.map fun kv => kv.2.pageId).Nodup
    ∧ ∀ kv ∈ s.pages_visited, kv.2.pageId < s.next_page_id

instance (s : TrackerState) : Decidable (TrackerInv s) := by
  unfold TrackerInv; infer_instance

/-- JSON values, restricted to the shapes the recorder's channel carries
(the event objects built by `sendEvent` contain strings, booleans, nulls,
arrays and objects — never numbers, so numbers are out of the model). -/
inductive J where
  | null : J
  | bool : Bool → J
  | str : String → J
  | arr : List J → J
  | obj : List (String × J) → J

/-- Hex digit used by `\u00XX` escapes (lowercase, as emitted by both
`JSON.stringify` and `json.dumps`). -/
def hexDig (n : Nat) : Char :=
  if n < 10 then Char.ofNat (48 + n) else Char.ofNat (87 + n)

/-- Value of a hex digit character. -/
def hexVal (c : Char) : Option Nat :=
  if 48 ≤ c.toNat ∧ c.toNat ≤ 57 then some (c.toNat - 48)
  else if 97 ≤ c.toNat ∧ c.toNat ≤ 102 then some (c.toNat - 87)
  else if 65 ≤ c.toNat ∧ c.toNat ≤ 70 then some (c.toNat - 55)
  else none

/-- String-character escaping shared by `JSON.stringify` and
`json.dumps(..., ensure_ascii=False)`: quote, backslash and the named
control escapes, `\u00XX` for the remaining control characters, everything
else (non-ASCII included) raw. -/
def escChar (c : Char) : List Char :=
  if c = '"' then ['\\', '"']
  else if c = '\\' then ['\\', '\\']
  else if c = '\n' then ['\\', 'n']
  else if c = '\t' then ['\\', 't']
  else if c = '\r' then ['\\', 'r']
  else if c.toNat = 8 then ['\\', 'b']
  else if c.toNat = 12 then ['\\', 'f']
  else if c.toNat < 32 then
    ['\\', 'u', '0', '0', hexDig (c.toNat / 16), hexDig (c.toNat % 16)]
  else [c]

/-- Serialized string literal: quote, escaped characters, quote. -/
def dStr (s : String) : List Char :=
  '"' :: (s.toList.flatMap escChar) ++ ['"']

mutual
/-- Serialized JSON value. `pysp` selects the separators: `true` gives
`json.dumps`'s defaults `", "` / `": "`, `false` gives `JSON.stringify`'s
`","` / `":"`. -/
def dVal (pysp : Bool) : J → List Char
  | .null => "null".toList
  | .bool b => if b then "true".toList else "false".toList
  | .str s => dStr s
  | .arr [] => ['[', ']']
  | .arr (x :: xs) => '[' :: (dVal pysp x ++ dArrTail pysp xs) ++ [']']
  | .obj [] => ['\x7b', '\x7d']
  | .obj (kv :: kvs) =>
    '\x7b' :: (dStr kv.1 ++ (if pysp then [':', ' '] else [':'])
      ++ dVal pysp kv.2 ++ dObjTail pysp kvs) ++ ['\x7d']

/-- Serialized remaining array elements, each preceded by the separator. -/
def dArrTail (pysp : Bool) : List J → List Char
  | [] => []
  | x :: xs =>
    (if pysp then [',', ' '] else [',']) ++ dVal pysp x ++ dArrTail pysp xs

/-- Serialized remaining object entries. -/
def dObjTail (pysp : Bool) : List (String × J) → List Char
  | [] => []
  | kv :: kvs =>
    (if pysp then [',', ' '] else [','])
      ++ dStr kv.1 ++ (if pysp then [':', ' '] else [':'])
      ++ dVal pysp kv.2 ++ dObjTail pysp kvs
end

/-- `JSON.stringify` on the event channel. -/
def stringify (v : J) : String := ⟨dVal false v⟩

/-- `json.dumps(action, ensure_ascii=False)` with default separators. -/
def json_dumps (v : J) : String := ⟨dVal true v⟩

/-- JSON insignificant whitespace. -/
def jsonWs (c : Char) : Bool :=
  c = ' ' ∨ c = '\t' ∨ c = '\n' ∨ c = '\r'

/-- Named escape characters accepted after a backslash. -/
def unescChar : Char → Option Char
  | 'n' => some '\n'
  | 't' => some '\t'
  | 'r' => some '\r'
  | 'b' => some (Char.ofNat 8)
  | 'f' => some (Char.ofNat 12)
  | '"' => some '"'
  | '\\' => some '\\'
  | '/' => some '/'
  | _ => none

/-- Parser: the content of a string literal after the opening quote.
Returns the decoded characters and the input after the closing quote. -/
def pStr : List Char → Option (List Char × List Char)
  | [] => none
  | '"' :: rest => some ([], rest)
  | '\\' :: 'u' :: a :: b :: c :: d :: rest =>
    match hexVal a, hexVal b, hexVal c, hexVal d with
    | some x, some y, some z, some w =>
      (pStr rest).map fun r =>
        ((Char.ofNat (((x * 16 + y) * 16 + z) * 16 + w)) :: r.1, r.2)
    | _, _, _, _ => none
  | '\\' :: e :: rest =>
    (unescChar e).bind fun u =>
      (pStr rest).map fun r => (u :: r.1, r.2)
  | ['\\'] => none
  | c :: rest =>
    if c.toNat < 32 then none
    else (pStr rest).map fun r => (c :: r.1, r.2)

mutual
/-- Parser: one JSON value (numbers excluded, see `J`), skipping leading
whitespace; fuel bounds the nesting work. -/
def pVal : Nat → List Char → Option (J × List Char)
  | 0, _ => none
  | Nat.succ fuel, s =>
    match s.dropWhile jsonWs with
    | 'n' :: 'u' :: 'l' :: 'l' :: rest => some (.null, rest)
    | 't' :: 'r' :: 'u' :: 'e' :: rest => some (.bool true, rest)
    | 'f' :: 'a' :: 'l' :: 's' :: 'e' :: rest => some (.bool false, rest)
    | '"' :: rest => (pStr rest).map fun r => (.str ⟨r.1⟩, r.2)
    | '[' :: rest =>
      (match rest.dropWhile jsonWs with
        | ']' :: rest2 => some (.arr [], rest2)
        | _ =>
          (pVal fuel rest).bind fun r =>
            (pArrTail fuel r.2).map fun r2 => (.arr (r.1 :: r2.1), r2.2))
    | '\x7b' :: rest =>
      (match rest.dropWhile jsonWs with
        | '\x7d' :: rest2 => some (.obj [], rest2)
        | '"' :: rest2 =>
          (pStr rest2).bind fun rk =>
            (match rk.2.dropWhile jsonWs with
              | ':' :: rest3 =>
                (pVal fuel rest3).bind fun rv =>
                  (pObjTail fuel rv.2).map fun r2 =>
                    (.obj ((⟨rk.1⟩, rv.1) :: r2.1), r2.2)
              | _ => none)
        | _ => none)
    | _ => none

/-- Parser: array elements after the first, up to `]`. -/
def pArrTail : Nat → List Char → Option (List J × List Char)
  | 0, _ => none
  | Nat.succ fuel, s =>
    match s.dropWhile jsonWs with
    | ']' :: rest => some ([], rest)
    | ',' :: rest =>
      (pVal fuel rest).bind fun r =>
        (pArrTail fuel r.2).map fun r2 => (r.1 :: r2.1, r2.2)
    | _ => none

/-- Parser: object entries after the first, up to the closing brace. -/
def pObjTail : Nat → List Char → Option (List (String × J) × List Char)
  | 0, _ => none
  | Nat.succ fuel, s =>
    match s.dropWhile jsonWs with
    | '\x7d' :: rest => some ([], rest)
    | ',' :: rest =>
      (match rest.dropWhile jsonWs with
        | '"' :: rest2 =>
          (pStr rest2).bind fun rk =>
            (match rk.2.dropWhile jsonWs with
              | ':' :: rest3 =>
                (pVal fuel rest3).bind fun rv =>
                  (pObjTail fuel rv.2).map fun r2 =>
                    ((⟨rk.1⟩, rv.1) :: r2.1, r2.2)
              | _ => none)
        | _ => none)
    | _ => none
end

/-- `json.loads(s)`: parse one value, require only whitespace after it.
`none` models a raised `JSONDecodeError` (and, since `J` has no numbers, a
payload kind the recorder's channel never carries). -/
def json_loads (s : String) : Option J :=
  match pVal (s.length + 1) s.toList with
  | some (v, rest) => if rest.dropWhile jsonWs = [] then some v else none
  | none => none

/-- Key lookup in a parsed JSON object (`none` for other value kinds). -/
def jLookup (k : String) : J → Option J
  | .obj kvs => lookKvs kvs
  | _ => none
where lookKvs : List (String × J) → Option J
  | [] => none
  | kv :: rest => if kv.1 = k then some kv.2 else lookKvs rest

/-- `ActionRecorder`'s mutable state: the in-memory `actions` list, the
lines so far written to `actions.ndjson` (each written with a trailing
newline and flushed; the newline is implicit here), and whether the file
handle `_file` is open (`stop()` sets it to `None`). -/
structure RecState where
  actions : List J
  fileContent : List String
  fileOpen : Bool

/-- `ActionRecorder.__init__`: empty action list, no open sink. -/
def recorderInit : RecState :=
  { actions := [], fileContent := [], fileOpen := false }

/-- `ActionRecorder.start()`: `open(self.output_path, "w")` truncates the
file and opens the sink. -/
def ActionRecorder.start (s : RecState) : RecState :=
  { s with fileContent := [], fileOpen := true }

/-- `ActionRecorder.record_action(action_json)`: parse the payload; on
success append to `self.actions` and, if the sink is open, write one
flushed ndjson line `json.dumps(action, ensure_ascii=False) + "\n"`; a
parse failure is logged and dropped (state unchanged). -/
def ActionRecorder.record_action (s : RecState) (action_json : String) :
    RecState :=
  match json_loads action_json with
  | none => s
  | some action =>
    { actions := s.actions ++ [action]
      fileContent :=
        if s.fileOpen then s.fileContent ++ [json_dumps action]
        else s.fileContent
      fileOpen := s.fileOpen }

/-- `ActionRecorder.stop()`: close and clear the sink, return the
accumulated action list. -/
def ActionRecorder.stop (s : RecState) : RecState × List J :=
  ({ s with fileOpen := false }, s.actions)

/-- `ActionRecorder.get_summary()`: recomputed on demand from
`self.actions`. Modelled projection: the `total_actions` count and the
distinct `url` values (non-string or missing `url` values map to `""`, as
`action.get("url", "")` does for missing ones); the `action_types` buckets
are not modelled; no property below relies on them. -/
def ActionRecorder.get_summary (s : RecState) : Nat × List String :=
  (s.actions.length,
    (s.actions.map fun a =>
        match jLookup "url" a with
        | some (.str u) => u
        | _ => "").dedup)

/-- The `extra` object passed to the recorder script's `sendEvent` at its
call sites: nothing (click/submit), `{value, masked}` (input/change), or
`{key}` (keydown). -/
inductive Extra where
  | nothing : Extra
  | valueMasked : J → Bool → Extra
  | keyOf : String → Extra

/-- The key/value pairs `...extra` spreads into the event object. -/
def extraFields : Extra → List (String × J)
  | .nothing => []
  | .valueMasked v m => [("value", v), ("masked", .bool m)]
  | .keyOf k => [("key", .str k)]

/-- A candidate as serialized by the recorder script (`notes` key only
present when the push included it). -/
def candidateToJ (c : Candidate) : J :=
  .obj ([("strategy", .str c.strategy), ("selector", .str c.selector)]
    ++ (match c.notes with
        | some n => [("notes", .str n)]
        | none => []))

/-- `getElementInfo(el)` from the recorder script: `null` for a missing or
tag-less target, else the element-descriptor object. -/
def getElementInfo : Option DomNode → J
  | none => .null
  | some el =>
    .obj
      [("tag", .str el.tag),
       ("id", match jsTruthy el.id with
         | some v => .str v
         | none => .null),
       ("name", match jsTruthy el.name with
         | some v => .str v
         | none => .null),
       ("type", match jsTruthy el.type with
         | some v => .str v
         | none => .null),
       ("textPreview", .str (jsSubstring (jsTrim (jsOr el.textContent "")) 50)),
       ("placeholder", match jsTruthy el.placeholder with
         | some v => .str v
         | none => .null),
       ("href", match jsTruthy el.href with
         | some v => .str v
         | none => .null),
       ("candidates", .arr ((getCandidates el).map candidateToJ))]

/-- One user interaction observed by the recorder script's listeners: the
timestamp and URL read at dispatch time, the event type, the target
element, and the extra fields the listener computes. -/
structure SessionEvent where
  ts : String
  type : String
  url : String
  target : Option DomNode
  extra : Extra

/-- The event object `sendEvent` builds:
`{ts, type, url, element, ...extra}`. -/
def sendEventJ (e : SessionEvent) : J :=
  .obj ([("ts", .str e.ts), ("type", .str e.type), ("url", .str e.url),
         ("element", getElementInfo e.target)] ++ extraFields e.extra)

/-- What the binding delivers to Python for one event:
`JSON.stringify(event)`. -/
def sessionInput (e : SessionEvent) : String :=
  stringify (sendEventJ e)

/-- The recorder state after `start()` and a sequence of delivered events. -/
def runSession (evs : List SessionEvent) : RecState :=
  evs.foldl (fun s e => ActionRecorder.record_action s (sessionInput e))
    (ActionRecorder.start recorderInit)

mutual
/-- The fuel a successful `pVal` run needs on a serialized value. -/
def needVal : J → Nat
  | .null => 1
  | .bool _ => 1
  | .str _ => 1
  | .arr [] => 1
  | .arr (x :: xs) => 1 + needVal x + needArrTail xs
  | .obj [] => 1
  | .obj (kv :: kvs) => 1 + needVal kv.2 + needObjTail kvs

/-- Fuel needed by `pArrTail` on serialized remaining elements. -/
def needArrTail : List J → Nat
  | [] => 1
  | x :: xs => 1 + needVal x + needArrTail xs

/-- Fuel needed by `pObjTail` on serialized remaining entries. -/
def needObjTail : List (String × J) → Nat
  | [] => 1
  | kv :: kvs => 1 + needVal kv.2 + needObjTail kvs
end

/-- Sample elements used to instantiate the theorems below on concrete
inputs (witnesses and counterexamples). -/
def sampleGo : DomNode :=
  { tag := "button", dataTestid := some "go", textContent := "Go" }

/-- An element that carries a `data-testid` attribute with an empty value
(plus an id). -/
def sampleEmptyTestid : DomNode :=
  { tag := "button", dataTestid := some "", id := some "x" }

/-- An element whose only test attribute is the `data-test-id` variant. -/
def sampleVariantOnly : DomNode :=
  { tag := "button", dataTestIdVar := some "x" }

/-- An element rich enough to produce five priority-tier candidates. -/
def sampleRich : DomNode :=
  { tag := "input", dataTestid := some "t", id := some "i", name := some "n",
    ariaLabel := some "a", role := some "textbox", textContent := "Go",
    placeholder := some "p" }

/-- An input whose `type` attribute is `PASSWORD` in upper case. -/
def samplePASSWORD : DomNode :=
  { tag := "input", type := some "PASSWORD" }

/-- A sensitive element dictionary as the extraction script would emit it. -/
def samplePyEl : PyElement :=
  { tag := "input", textPreview := some "secret", isSensitive := some true }

/-- A one-element evaluation payload. -/
def samplePayload : EvalPayload :=
  { pageSignals := none, elements := [samplePyEl] }

/-- `https://x.test/a?x=1`, parsed. -/
def sampleUrlA1 : Url :=
  { scheme := "https", netloc := "x.test", path := "/a", params := "",
    query := "x=1", fragment := "" }

/-- `https://x.test/a?x=2`, parsed. -/
def sampleUrlA2 : Url :=
  { scheme := "https", netloc := "x.test", path := "/a", params := "",
    query := "x=2", fragment := "" }

/-- `https://x.test/b`, parsed. -/
def sampleUrlB : Url :=
  { scheme := "https", netloc := "x.test", path := "/b", params := "",
    query := "", fragment := "" }

/-- A minimal recorded click event. -/
def ev0 : SessionEvent :=
  { ts := "t0", type := "click", url := "u0", target := none,
    extra := .nothing }

lemma jsTruthy_some {o : Option String} {v : String} (h : jsTruthy o = some v) :
    v ≠ "" ∧ o = some v := by
  cases o with
  | none => simp [jsTruthy] at h
  | some s =>
    by_cases hs : s = ""
    · simp [jsTruthy, hs] at h
    · simp [jsTruthy, hs] at h
      simp_all

lemma jsTruthy_some_self {v : String} (h : v ≠ "") : jsTruthy (some v) = some v := by
  simp [jsTruthy, h]

lemma jsOr_empty (a : String) : jsOr a "" = a := by
  unfold jsOr; split <;> simp_all

lemma jsSubstring_eq_empty_iff (s : String) (n : Nat) (hn : 0 < n) :
    jsSubstring s n = "" ↔ s = "" := by
  cases s with
  | mk data =>
    cases data with
    | nil => simp [jsSubstring]
    | cons c cs =>
      cases n with
      | zero => omega
      | succ m =>
        constructor <;> intro h <;> simp [jsSubstring, String.ext_iff] at h ⊢

lemma jsSubstring_substring (s : String) :
    jsSubstring (jsSubstring s 50) 30 = jsSubstring s 30 := by
  simp [jsSubstring, List.take_take]

/-- `s.includes('current-password')` implies `s.includes('password')`
(substring transitivity). -/
lemma jsIncludes_current {s : String}
    (h : jsIncludes s "current-password" = true) :
    jsIncludes s "password" = true := by
  simp only [jsIncludes, decide_eq_true_eq] at h ⊢
  exact List.IsInfix.trans (by decide) h

lemma jsIncludes_new {s : String}
    (h : jsIncludes s "new-password" = true) :
    jsIncludes s "password" = true := by
  simp only [jsIncludes, decide_eq_true_eq] at h ⊢
  exact List.IsInfix.trans (by decide) h

/-- The recorder's three-way autocomplete test collapses to the single
`includes('password')` test the extractor uses. -/
lemma autocomplete_rule (s : String) :
    (jsIncludes s "password" || jsIncludes s "current-password"
      || jsIncludes s "new-password") = jsIncludes s "password" := by
  cases hp : jsIncludes s "password" with
  | true => simp [hp]
  | false =>
    cases hc : jsIncludes s "current-password" with
    | true => exact absurd (jsIncludes_current hc) (by simp [hp])
    | false =>
      cases hn : jsIncludes s "new-password" with
      | true => exact absurd (jsIncludes_new hn) (by simp [hp])
      | false => simp [hp, hc, hn]

/-- The shape `if L.length = 0 then [x] else L` is never empty. -/
lemma length_fallback_ne_nil (L : List Candidate) (x : Candidate) :
    (if L.length = 0 then [x] else L) ≠ [] := by
  by_cases h : L.length = 0
  · simp [h]
  · rw [if_neg h]
    exact fun hnil => h (by simp [hnil])

/-- The shape `if L.length = 0 then [x] else L` keeps the head of a
non-empty `L`. -/
lemma length_fallback_head (B : List Candidate) (x c : Candidate)
    (t : List Candidate) (hB : B = c :: t) :
    (if B.length = 0 then [x] else B).head? = some c := by
  subst hB; simp

/-- A list whose `head?` is `some c` is `c` followed by some tail. -/
lemma exists_cons_of_headOpt {α : Type} (L : List α) (c : α)
    (h : L.head? = some c) : ∃ t, L = c :: t := by
  cases L with
  | nil => simp at h
  | cons a t =>
    simp at h
    exact ⟨t, by rw [h]⟩

/-- C1. For every element processed by either candidate generator — the
Element Inventory Extractor's inline generation or the Action Recorder's
`getCandidates` — the produced candidate list is non-empty: when no
higher-priority tier produced a candidate, a structural fallback (css-path
or xpath on the extractor side, css-path on the recorder side) is appended.
Both generators are total Lean functions over any `DomNode`, so they never
throw on missing attributes. -/
theorem C1_candidate_list_never_empty (el : DomNode) :
    extractorCandidates el ≠ [] ∧ getCandidates el ≠ [] := by
  constructor
  · simp only [extractorCandidates]
    exact length_fallback_ne_nil _ _
  · simp only [getCandidates]
    exact length_fallback_ne_nil _ _

/-- C2, counterexample. `<button data-testid="" id="x">` carries a
`data-testid` attribute, yet the first candidate of both generators has
strategy `id`, not `data-testid`: the scripts test the attribute's JS
truthiness, so an empty value skips the data-testid tier. -/
theorem C2_counterexample :
    sampleEmptyTestid.dataTestid = some ""
      ∧ ((extractorCandidates sampleEmptyTestid).head?.map Candidate.strategy
          ≠ some "data-testid")
      ∧ ((getCandidates sampleEmptyTestid).head?.map Candidate.strategy
          ≠ some "data-testid") := by
  refine ⟨rfl, ?_, ?_⟩ <;> decide

/-- C2, amended: for every element whose `data-testid` attribute has a
non-empty (truthy) value `v`, the first candidate produced by the
extractor's generation and by the recorder's `getCandidates` has strategy
`data-testid` and selector `[data-testid="v"]` built from the raw value. -/
theorem C2_first_candidate_data_testid (el : DomNode) (v : String)
    (h : jsTruthy el.dataTestid = some v) :
    (extractorCandidates el).head?
        = some ⟨"data-testid", "[data-testid=\"" ++ v ++ "\"]", none⟩
      ∧ (getCandidates el).head?
        = some ⟨"data-testid", "[data-testid=\"" ++ v ++ "\"]", none⟩ := by
  obtain ⟨hv, _⟩ := jsTruthy_some h
  constructor
  · have hh : (extractorBase el).head?
        = some ⟨"data-testid", "[data-testid=\"" ++ v ++ "\"]", none⟩ := by
      simp only [extractorBase, h]
      rfl
    obtain ⟨t, ht⟩ := exists_cons_of_headOpt _ _ hh
    simp only [extractorCandidates, ht]
    by_cases hc : getCssPath el.chain ≠ "" ∧
        ((⟨"data-testid", "[data-testid=\"" ++ v ++ "\"]", none⟩ : Candidate) :: t).length < 5
    · rw [if_pos hc]
      exact length_fallback_head _ _ _
        (t ++ [⟨"css-path", getCssPath el.chain, some "Fallback - pode ser frágil"⟩])
        (by simp)
    · rw [if_neg hc]
      exact length_fallback_head _ _ _ t rfl
  · have hh : (getCandidatesBase el).head?
        = some ⟨"data-testid", "[data-testid=\"" ++ v ++ "\"]", none⟩ := by
      simp only [getCandidatesBase, jsOrO, h, jsTruthy_some_self hv]
      rfl
    obtain ⟨t, ht⟩ := exists_cons_of_headOpt _ _ hh
    simp only [getCandidates, ht]
    exact length_fallback_head _ _ _ t rfl

/-- Witness for C2's amended theorem at `<button data-testid="go">Go</button>`. -/
theorem C2_first_candidate_data_testid_witness :
    (extractorCandidates sampleGo).head?
        = some ⟨"data-testid", "[data-testid=\"go\"]", none⟩
      ∧ (getCandidates sampleGo).head?
        = some ⟨"data-testid", "[data-testid=\"go\"]", none⟩ := by
  simpa using C2_first_candidate_data_testid sampleGo "go" (by decide)

/-- C9. Whenever the underlying page evaluation throws, `extract_elements`
returns exactly `{"page_signals": {}, "elements": []}` (the `except` branch;
as a total function of the evaluation outcome it propagates nothing). -/
theorem C9_eval_throw_returns_empty (msg : String) (mask_sensitive : Bool) :
    extract_elements (Except.error msg) mask_sensitive
      = { page_signals := none, elements := [] } := rfl

/-- C4. In `extract_elements`' returned output: with `mask_sensitive=True`
the element list is the payload list with the mask-then-pop processing
applied elementwise, any element whose `isSensitive` flag was truthy ends up
with `textPreview = "***"`, and — for every evaluation outcome and either
masking setting — no returned element still carries the internal
`isSensitive` key. -/
theorem C4_masking_and_flag_removal (res : Except String EvalPayload)
    (r : EvalPayload) (mask_sensitive : Bool) :
    ((extract_elements (Except.ok r) true).elements
        = r.elements.map fun el => popIsSensitive (maskStep el))
      ∧ (∀ el : PyElement, pyTruthyBool el.isSensitive = true →
          (popIsSensitive (maskStep el)).textPreview = some "***")
      ∧ (∀ el ∈ (extract_elements res mask_sensitive).elements,
          el.isSensitive = none) := by
  refine ⟨?_, ?_, ?_⟩
  · simp [extract_elements, List.map_map, Function.comp]
  · intro el hel
    simp [maskStep, hel, popIsSensitive]
  · intro el hel
    cases res with
    | error e => simp [extract_elements] at hel
    | ok r2 =>
      cases mask_sensitive <;>
        simp only [extract_elements, List.mem_map, if_pos, if_neg,
          Bool.false_eq_true, if_false, if_true] at hel
      · obtain ⟨x, _, rfl⟩ := hel
        rfl
      · obtain ⟨x, _, rfl⟩ := hel
        rfl

/-- Witness for C4 on a one-element payload holding a sensitive input. -/
theorem C4_masking_and_flag_removal_witness :
    ((extract_elements (Except.ok samplePayload) true).elements
        = [popIsSensitive (maskStep samplePyEl)])
      ∧ (popIsSensitive (maskStep samplePyEl)).textPreview = some "***"
      ∧ (popIsSensitive (maskStep samplePyEl)).isSensitive = none := by
  have h := C4_masking_and_flag_removal (Except.ok samplePayload) samplePayload true
  exact ⟨h.1, h.2.1 samplePyEl (by decide),
    h.2.2 (popIsSensitive (maskStep samplePyEl)) (by decide)⟩

/-- C5, counterexample. For `<input type="PASSWORD">` the recorder's
`isSensitiveInput` lowercases before comparing and classifies it sensitive,
while the extraction script compares the raw attribute with `'password'`
case-sensitively and does not: the two classifiers disagree, so the single
consistent rule the claim states does not hold on every element. -/
theorem C5_counterexample :
    isSensitiveInput samplePASSWORD = true
      ∧ extractorIsSensitive samplePASSWORD = false := by
  constructor <;> decide

/-- C5, amended: the two classifiers agree on every element whose `type`
attribute value is unchanged by lowercasing (absent, empty, or already
lower-case, which covers every standard `type` value): on those elements
both classify sensitive iff `type` is `password` or `autocomplete` contains
`password` (equivalently any of `password`, `current-password`,
`new-password`) as a case-insensitive substring. The extractor's `type`
test alone is case-sensitive on the raw attribute, hence the restriction. -/
theorem C5_classifiers_agree (el : DomNode)
    (h : jsToLower (el.type.getD "") = el.type.getD "") :
    isSensitiveInput el = extractorIsSensitive el := by
  simp only [isSensitiveInput, extractorIsSensitive]
  rw [autocomplete_rule]
  congr 1
  cases ht : el.type with
  | none => simp [jsTruthy, jsOr, jsToLower]
  | some t =>
    rw [ht] at h
    simp only [Option.getD_some] at h
    by_cases h0 : t = ""
    · subst h0
      simp [jsTruthy, jsOr, jsToLower]
    · simp only [Option.getD_some]
      rw [jsOr_empty, h, jsTruthy_some_self h0]
      cases hp : t == "password" <;> simp_all

/-- Witness for C5's amended theorem at `<input type="password">` and at an
attribute-free element. -/
theorem C5_classifiers_agree_witness :
    isSensitiveInput { tag := "input", type := some "password" }
        = extractorIsSensitive { tag := "input", type := some "password" }
      ∧ isSensitiveInput { tag := "div" } = extractorIsSensitive { tag := "div" } := by
  exact ⟨C5_classifiers_agree _ (by decide), C5_classifiers_agree _ (by decide)⟩

/-- C10. The element objects the extraction script emits carry only
`tag`/`textPreview`/`attrs`/`isSensitive`/`candidates` — never a `value`
key — so in any successful extraction over script-emitted elements no
returned element has a `value`, and the `if "value" in el` redaction branch
of the masking step never fires on the extraction path. -/
theorem C10_no_value_key_in_extraction (sig : Option PageSignals)
    (nodes : List DomNode) (mask_sensitive : Bool) (el : DomNode) :
    ((extract_elements (Except.ok ⟨sig, nodes.map jsElement⟩)
          mask_sensitive).elements.all fun e => e.value == none) = true
      ∧ (jsElement el).value = none
      ∧ (maskStep (jsElement el)).value = none := by
  refine ⟨?_, rfl, ?_⟩
  · simp only [List.all_eq_true, beq_iff_eq]
    intro e he
    simp only [extract_elements] at he
    cases mask_sensitive <;>
      simp only [Bool.false_eq_true, if_false, if_true, List.map_map,
        List.mem_map, Function.comp] at he <;>
      obtain ⟨x, hx, rfl⟩ := he
    · rfl
    · simp only [popIsSensitive, maskStep]
      split <;> rfl
  · simp only [maskStep]
    split <;> rfl

/-- Appending a fresh binding does not change existing lookups. -/
lemma assocFind_append (l : List (String × PageEntry)) (k k' : String)
    (v : PageEntry) :
    assocFind k (l ++ [(k', v)])
      = match assocFind k l with
        | some e => some e
        | none => if k' = k then some v else none := by
  induction l with
  | nil => simp [assocFind]
  | cons kv rest ih =>
    by_cases hk : kv.1 = k
    · simp [assocFind, hk]
    · simp [assocFind, hk, ih]

/-- A found entry is one of the list's entries. -/
lemma assocFind_mem {l : List (String × PageEntry)} {k : String}
    {e : PageEntry} (h : assocFind k l = some e) : ∃ k', (k', e) ∈ l := by
  induction l with
  | nil => simp [assocFind] at h
  | cons kv rest ih =>
    by_cases hk : kv.1 = k
    · simp [assocFind, hk] at h
      exact ⟨kv.1, by simp [← h]⟩
    · simp only [assocFind, if_neg hk] at h
      obtain ⟨k', hk'⟩ := ih h
      exact ⟨k', by simp [hk']⟩

/-- C6. The Page Identity Tracker: the session starts with `next_page_id = 1`
and an empty map, so the first visit overall gets id 1; a visit to a URL
whose normalization is not yet recorded allocates the current counter as its
pageId, reports `is_new = true`, bumps the counter, records
`{pageId, url, title, first_visit}` under the normalized URL and leaves all
existing entries unchanged; a visit to an already-recorded normalization
returns the stored pageId with `is_new = false` and leaves the state
entirely unchanged; and the invariant that recorded pageIds are pairwise
distinct (never reused) and below the counter is preserved. -/
theorem C6_page_identity_tracker (s : TrackerState) (hInv : TrackerInv s)
    (u : Url) (title now : String) :
    (trackerInit.next_page_id = 1 ∧ TrackerInv trackerInit)
      ∧ (assocFind (normalize_url u) s.pages_visited = none →
          (get_or_create_page_id s u title now).1 = (s.next_page_id, true)
            ∧ (get_or_create_page_id s u title now).2.next_page_id
                = s.next_page_id + 1
            ∧ assocFind (normalize_url u)
                (get_or_create_page_id s u title now).2.pages_visited
                = some ⟨s.next_page_id, u.raw, title, now⟩
            ∧ (∀ k e, assocFind k s.pages_visited = some e →
                assocFind k (get_or_create_page_id s u title now).2.pages_visited
                  = some e))
      ∧ (∀ e, assocFind (normalize_url u) s.pages_visited = some e →
          (get_or_create_page_id s u title now).1 = (e.pageId, false)
            ∧ (get_or_create_page_id s u title now).2 = s)
      ∧ TrackerInv (get_or_create_page_id s u title now).2 := by
  refine ⟨⟨rfl, by constructor <;> simp [trackerInit]⟩, ?_, ?_, ?_⟩
  · intro hnone
    simp only [get_or_create_page_id, hnone]
    refine ⟨by simp, by simp, ?_, ?_⟩
    · rw [assocFind_append, hnone]
      simp
    · intro k e hk
      rw [assocFind_append, hk]
  · intro e he
    simp only [get_or_create_page_id, he]
    exact ⟨by simp, by simp⟩
  · cases hfind : assocFind (normalize_url u) s.pages_visited with
    | some e => simpa only [get_or_create_page_id, hfind] using hInv
    | none =>
      obtain ⟨hnodup, hlt⟩ := hInv
      simp only [get_or_create_page_id, hfind]
      constructor
      · simp only [List.map_append, List.map_cons, List.map_nil]
        rw [List.nodup_append]
        refine ⟨hnodup, by simp, ?_⟩
        intro a ha
        simp only [List.mem_map] at ha
        obtain ⟨kv, hkv, rfl⟩ := ha
        have := hlt kv hkv
        simp only [List.mem_singleton]
        omega
      · intro kv hkv
        simp only [List.mem_append, List.mem_singleton] at hkv
        cases hkv with
        | inl hmem => exact Nat.lt_succ_of_lt (hlt kv hmem)
        | inr heq => simp [heq]

/-- Witness for C6: from a fresh session, `https://x.test/a?x=1` gets id 1
as a new page, `https://x.test/a?x=2` (same normalization) reuses id 1 as a
revisit leaving the state unchanged, and `https://x.test/b` then gets id 2. -/
theorem C6_page_identity_tracker_witness :
    (get_or_create_page_id trackerInit sampleUrlA1 "A" "t1").1 = (1, true)
      ∧ (get_or_create_page_id
          (get_or_create_page_id trackerInit sampleUrlA1 "A" "t1").2
          sampleUrlA2 "A" "t2").1 = (1, false)
      ∧ (get_or_create_page_id
          (get_or_create_page_id trackerInit sampleUrlA1 "A" "t1").2
          sampleUrlA2 "A" "t2").2
          = (get_or_create_page_id trackerInit sampleUrlA1 "A" "t1").2
      ∧ (get_or_create_page_id
          (get_or_create_page_id trackerInit sampleUrlA1 "A" "t1").2
          sampleUrlB "B" "t3").1 = (2, true) := by
  have h1 := (C6_page_identity_tracker trackerInit (by decide)
    sampleUrlA1 "A" "t1").2.1 (by decide)
  have hs1 : TrackerInv (get_or_create_page_id trackerInit sampleUrlA1 "A" "t1").2 :=
    (C6_page_identity_tracker trackerInit (by decide) sampleUrlA1 "A" "t1").2.2.2
  have h2 := (C6_page_identity_tracker _ hs1 sampleUrlA2 "A" "t2").2.2.1
    ⟨1, sampleUrlA1.raw, "A", "t1"⟩ (by decide)
  have h3 := (C6_page_identity_tracker _ hs1 sampleUrlB "B" "t3").2.1 (by decide)
  refine ⟨h1.1, h2.1, h2.2, ?_⟩
  rw [h3.1]
  decide

lemma hexVal_hexDig : ∀ m, m < 16 → hexVal (hexDig m) = some m := by decide

/-- Dropping whitespace skips an all-whitespace prefix. -/
lemma dropWhile_ws_append (l1 l2 : List Char)
    (h : ∀ c ∈ l1, jsonWs c = true) :
    List.dropWhile jsonWs (l1 ++ l2) = List.dropWhile jsonWs l2 := by
  induction l1 with
  | nil => rfl
  | cons c t ih =>
    simp [List.dropWhile, h c (by simp), ih fun x hx => h x (by simp [hx])]

/-- String-content round trip: parsing the escaped characters followed by
the closing quote recovers the characters and the remainder. -/
lemma pStr_rt (cs rest : List Char) :
    pStr (cs.flatMap escChar ++ '"' :: rest) = some (cs, rest) := by
  induction cs with
  | nil => simp [pStr]
  | cons c cs ih =>
    rw [List.flatMap_cons, List.append_assoc]
    by_cases h1 : c = '"'
    · subst h1; simp [escChar, pStr, unescChar, ih]
    · by_cases h2 : c = '\\'
      · subst h2; simp [escChar, pStr, unescChar, ih]
      · by_cases h3 : c = '\n'
        · subst h3; simp [escChar, pStr, unescChar, ih]
        · by_cases h4 : c = '\t'
          · subst h4; simp [escChar, pStr, unescChar, ih]
          · by_cases h5 : c = '\r'
            · subst h5; simp [escChar, pStr, unescChar, ih]
            · by_cases h6 : c.toNat = 8
              · have hc : Char.ofNat 8 = c := by rw [← h6, Char.ofNat_toNat]
                simp [escChar, h1, h2, h3, h4, h5, h6, pStr, unescChar, ih]
                exact hc
              · by_cases h7 : c.toNat = 12
                · have hc : Char.ofNat 12 = c := by rw [← h7, Char.ofNat_toNat]
                  simp [escChar, h1, h2, h3, h4, h5, h6, h7, pStr, unescChar, ih]
                  exact hc
                · by_cases h8 : c.toNat < 32
                  · have hdiv : c.toNat / 16 < 16 := by omega
                    have hmod : c.toNat % 16 < 16 := Nat.mod_lt _ (by omega)
                    have hn : c.toNat / 16 * 16 + c.toNat % 16 = c.toNat := by
                      omega
                    simp only [escChar, if_neg h1, if_neg h2, if_neg h3,
                      if_neg h4, if_neg h5, if_neg h6, if_neg h7, if_pos h8,
                      List.cons_append, List.nil_append, pStr,
                      hexVal_hexDig _ hdiv, hexVal_hexDig _ hmod, ih]
                    simp [show hexVal '0' = some 0 from by decide, hn,
                      Char.ofNat_toNat]
                  · simp [escChar, h1, h2, h3, h4, h5, h6, h7, h8, pStr, ih]

/-- The first character of a serialized value: never whitespace, a comma,
a colon, or a closing bracket. -/
lemma dVal_head (pysp : Bool) (v : J) :
    ∃ c tail, dVal pysp v = c :: tail ∧ jsonWs c = false
      ∧ c ≠ ']' ∧ c ≠ '\x7d' ∧ c ≠ ',' ∧ c ≠ ':' := by
  cases v with
  | null => exact ⟨'n', _, rfl, by decide, by decide, by decide, by decide, by decide⟩
  | bool b =>
    cases b with
    | true => exact ⟨'t', _, rfl, by decide, by decide, by decide, by decide, by decide⟩
    | false => exact ⟨'f', _, rfl, by decide, by decide, by decide, by decide, by decide⟩
  | str s =>
    exact ⟨'"', _, rfl, by decide, by decide, by decide, by decide, by decide⟩
  | arr xs =>
    cases xs with
    | nil => exact ⟨'[', _, rfl, by decide, by decide, by decide, by decide, by decide⟩
    | cons x t =>
      exact ⟨'[', _, rfl, by decide, by decide, by decide, by decide, by decide⟩
  | obj kvs =>
    cases kvs with
    | nil => exact ⟨'\x7b', _, rfl, by decide, by decide, by decide, by decide, by decide⟩
    | cons kv t =>
      exact ⟨'\x7b', _, rfl, by decide, by decide, by decide, by decide, by decide⟩

lemma needVal_pos (v : J) : 1 ≤ needVal v := by
  cases v with
  | null => simp [needVal]
  | bool b => simp [needVal]
  | str s => simp [needVal]
  | arr xs => cases xs <;> simp [needVal] <;> omega
  | obj kvs => cases kvs <;> simp [needVal] <;> omega

lemma needArrTail_pos (xs : List J) : 1 ≤ needArrTail xs := by
  cases xs <;> simp [needArrTail] <;> omega

lemma needObjTail_pos (kvs : List (String × J)) : 1 ≤ needObjTail kvs := by
  cases kvs <;> simp [needObjTail] <;> omega

/-- Round trip of the parser over both serializers (`pysp` selects the
separator convention), stated with an arbitrary all-whitespace prefix in
front of a value, by strong induction on the fuel. -/
lemma parse_rt (pysp : Bool) : ∀ fuel : Nat,
    (∀ v (ws rest : List Char), (∀ c ∈ ws, jsonWs c = true) →
      needVal v ≤ fuel →
      pVal fuel (ws ++ (dVal pysp v ++ rest)) = some (v, rest))
    ∧ (∀ (xs : List J) (rest : List Char), needArrTail xs ≤ fuel →
      pArrTail fuel (dArrTail pysp xs ++ ']' :: rest) = some (xs, rest))
    ∧ (∀ (kvs : List (String × J)) (rest : List Char),
      needObjTail kvs ≤ fuel →
      pObjTail fuel (dObjTail pysp kvs ++ '\x7d' :: rest) = some (kvs, rest)) := by
  intro fuel
  induction fuel using Nat.strong_induction_on with
  | _ fuel ih =>
    match fuel with
    | 0 =>
      refine ⟨?_, ?_, ?_⟩
      · intro v ws rest hws hn
        exact absurd hn (by have := needVal_pos v; omega)
      · intro xs rest hn
        exact absurd hn (by have := needArrTail_pos xs; omega)
      · intro kvs rest hn
        exact absurd hn (by have := needObjTail_pos kvs; omega)
    | Nat.succ f =>
      have ihf := ih f (by omega)
      refine ⟨?_, ?_, ?_⟩
      · intro v ws rest hws hn
        obtain ⟨c, tail, hd, hwc, hne1, hne2, hne3, hne4⟩ := dVal_head pysp v
        have hdrop : List.dropWhile jsonWs (ws ++ (dVal pysp v ++ rest))
            = dVal pysp v ++ rest := by
          rw [dropWhile_ws_append _ _ hws, hd]
          simp [List.dropWhile, hwc]
        cases v with
        | null =>
          simp only [pVal, hdrop]
          simp [dVal]
        | bool b =>
          cases b <;> simp only [pVal, hdrop] <;> simp [dVal]
        | str s0 =>
          simp only [pVal, hdrop]
          simp [dVal, dStr, List.singleton_append, pStr_rt]
        | arr xs =>
          cases xs with
          | nil =>
            simp only [pVal, hdrop]
            simp [dVal, List.dropWhile, jsonWs]
          | cons x xs =>
            have hnx : needVal x ≤ f := by simp [needVal] at hn; omega
            have hnxs : needArrTail xs ≤ f := by simp [needVal] at hn; omega
            obtain ⟨c2, tail2, hd2, hwc2, hne21, hne22, hne23, hne24⟩ :=
              dVal_head pysp x
            simp only [pVal, hdrop]
            simp only [dVal, List.cons_append, List.append_assoc]
            split
            · next heq =>
              rw [hd2] at heq
              simp [List.dropWhile, hwc2, List.cons_append] at heq
              exact absurd heq.1 hne21
            · have hx := ihf.1 x [] (dArrTail pysp xs ++ (']' :: rest))
                (by simp) hnx
              simp only [List.nil_append] at hx
              have hxs := ihf.2.1 xs rest hnxs
              simp [hx, hxs]
        | obj kvs =>
          cases kvs with
          | nil =>
            simp only [pVal, hdrop]
            simp [dVal, List.dropWhile, jsonWs]
          | cons kv kvs =>
            have hnk : needVal kv.2 ≤ f := by simp [needVal] at hn; omega
            have hnkvs : needObjTail kvs ≤ f := by simp [needVal] at hn; omega
            have hx0 := ihf.1 kv.2 [] (dObjTail pysp kvs ++ ('\x7d' :: rest))
              (by simp) hnk
            simp only [List.nil_append] at hx0
            have hx1 := ihf.1 kv.2 [' '] (dObjTail pysp kvs ++ ('\x7d' :: rest))
              (by simp [jsonWs]) hnk
            simp only [List.singleton_append] at hx1
            have hko := ihf.2.2 kvs rest hnkvs
            cases pysp with
            | false =>
              simp only [pVal, hdrop]
              simp [dVal, dStr, List.singleton_append, pStr_rt,
                List.dropWhile, jsonWs, hx0, hko]
            | true =>
              simp only [pVal, hdrop]
              simp [dVal, dStr, List.singleton_append, pStr_rt,
                List.dropWhile, jsonWs, hx1, hko]
      · intro xs rest hn2
        cases xs with
        | nil =>
          simp [pArrTail, dArrTail, List.dropWhile, jsonWs]
        | cons x xs =>
          have hnx : needVal x ≤ f := by simp [needArrTail] at hn2; omega
          have hnxs : needArrTail xs ≤ f := by simp [needArrTail] at hn2; omega
          have hx0 := ihf.1 x [] (dArrTail pysp xs ++ (']' :: rest))
            (by simp) hnx
          simp only [List.nil_append] at hx0
          have hx1 := ihf.1 x [' '] (dArrTail pysp xs ++ (']' :: rest))
            (by simp [jsonWs]) hnx
          simp only [List.singleton_append] at hx1
          have hxs := ihf.2.1 xs rest hnxs
          cases pysp with
          | false => simp [pArrTail, dArrTail, List.dropWhile, jsonWs, hx0, hxs]
          | true => simp [pArrTail, dArrTail, List.dropWhile, jsonWs, hx1, hxs]
      · intro kvs rest hn2
        cases kvs with
        | nil =>
          simp [pObjTail, dObjTail, List.dropWhile, jsonWs]
        | cons kv kvs =>
          have hnk : needVal kv.2 ≤ f := by simp [needObjTail] at hn2; omega
          have hnkvs : needObjTail kvs ≤ f := by simp [needObjTail] at hn2; omega
          have hx0 := ihf.1 kv.2 [] (dObjTail pysp kvs ++ ('\x7d' :: rest))
            (by simp) hnk
          simp only [List.nil_append] at hx0
          have hx1 := ihf.1 kv.2 [' '] (dObjTail pysp kvs ++ ('\x7d' :: rest))
            (by simp [jsonWs]) hnk
          simp only [List.singleton_append] at hx1
          have hko := ihf.2.2 kvs rest hnkvs
          cases pysp with
          | false =>
            simp [pObjTail, dObjTail, dStr, List.singleton_append, pStr_rt,
              List.dropWhile, jsonWs, hx0, hko]
          | true =>
            simp [pObjTail, dObjTail, dStr, List.singleton_append, pStr_rt,
              List.dropWhile, jsonWs, hx1, hko]

/-- The fuel bound is covered by the serialized length (plus one). -/
lemma need_le_len (pysp : Bool) : ∀ n : Nat,
    (∀ v, needVal v ≤ n → needVal v ≤ (dVal pysp v).length)
    ∧ (∀ xs, needArrTail xs ≤ n →
        needArrTail xs ≤ (dArrTail pysp xs).length + 1)
    ∧ (∀ kvs, needObjTail kvs ≤ n →
        needObjTail kvs ≤ (dObjTail pysp kvs).length + 1) := by
  intro n
  induction n using Nat.strong_induction_on with
  | _ n ih =>
    match n with
    | 0 =>
      refine ⟨?_, ?_, ?_⟩
      · intro v hv; exact absurd hv (by have := needVal_pos v; omega)
      · intro xs hxs; exact absurd hxs (by have := needArrTail_pos xs; omega)
      · intro kvs hk; exact absurd hk (by have := needObjTail_pos kvs; omega)
    | Nat.succ f =>
      have ihf := ih f (by omega)
      refine ⟨?_, ?_, ?_⟩
      · intro v hv
        cases v with
        | null => simp [needVal, dVal]
        | bool b => cases b <;> simp [needVal, dVal]
        | str s0 => simp [needVal, dVal, dStr]
        | arr xs =>
          cases xs with
          | nil => simp [needVal, dVal]
          | cons x t =>
            simp only [needVal] at hv ⊢
            have h1 := needVal_pos x
            have h2 := needArrTail_pos t
            have hx := ihf.1 x (by omega)
            have ht := ihf.2.1 t (by omega)
            simp [dVal]
            omega
        | obj kvs =>
          cases kvs with
          | nil => simp [needVal, dVal]
          | cons kv t =>
            simp only [needVal] at hv ⊢
            have h1 := needVal_pos kv.2
            have h2 := needObjTail_pos t
            have hx := ihf.1 kv.2 (by omega)
            have ht := ihf.2.2 t (by omega)
            cases pysp <;> simp [dVal, dStr] <;> omega
      · intro xs hxs
        cases xs with
        | nil => simp [needArrTail, dArrTail]
        | cons x t =>
          simp only [needArrTail] at hxs ⊢
          have h1 := needVal_pos x
          have h2 := needArrTail_pos t
          have hx := ihf.1 x (by omega)
          have ht := ihf.2.1 t (by omega)
          cases pysp <;> simp [dArrTail] <;> omega
      · intro kvs hk
        cases kvs with
        | nil => simp [needObjTail, dObjTail]
        | cons kv t =>
          simp only [needObjTail] at hk ⊢
          have h1 := needVal_pos kv.2
          have h2 := needObjTail_pos t
          have hx := ihf.1 kv.2 (by omega)
          have ht := ihf.2.2 t (by omega)
          cases pysp <;> simp [dObjTail, dStr] <;> omega

/-- `json.loads` recovers any value from either serializer's output. -/
lemma json_loads_dVal (pysp : Bool) (v : J) :
    json_loads ⟨dVal pysp v⟩ = some v := by
  have hneed : needVal v ≤ (dVal pysp v).length :=
    (need_le_len pysp (needVal v)).1 v le_rfl
  have h := (parse_rt pysp ((dVal pysp v).length + 1)).1 v [] []
    (by simp) (by omega)
  simp only [List.nil_append, List.append_nil] at h
  simp [json_loads, String.length, String.toList, h]

/-- `json.loads (JSON.stringify v) = v`: the event channel round trip. -/
lemma json_loads_stringify (v : J) : json_loads (stringify v) = some v :=
  json_loads_dVal false v

/-- `json.loads (json.dumps v) = v`: the ndjson line round trip. -/
lemma json_loads_dumps (v : J) : json_loads (json_dumps v) = some v :=
  json_loads_dVal true v

/-- While the sink is open, each delivered event appends exactly one
`json.dumps` line (its own re-serialization of the parsed event) and the
sink stays open. -/
lemma session_fileContent : ∀ (evs : List SessionEvent) (s : RecState),
    s.fileOpen = true →
    (List.foldl (fun s e => ActionRecorder.record_action s (sessionInput e))
        s evs).fileContent
      = s.fileContent ++ evs.map (fun e => json_dumps (sendEventJ e))
    ∧ (List.foldl (fun s e => ActionRecorder.record_action s (sessionInput e))
        s evs).fileOpen = true := by
  intro evs
  induction evs with
  | nil => intro s h; simp [h]
  | cons e t ih =>
    intro s hopen
    simp only [List.foldl_cons, List.map_cons]
    have hstep : ActionRecorder.record_action s (sessionInput e)
        = { actions := s.actions ++ [sendEventJ e],
            fileContent := s.fileContent ++ [json_dumps (sendEventJ e)],
            fileOpen := s.fileOpen } := by
      simp [ActionRecorder.record_action, sessionInput, json_loads_stringify,
        hopen]
    rw [hstep]
    obtain ⟨h1, h2⟩ := ih
      { actions := s.actions ++ [sendEventJ e],
        fileContent := s.fileContent ++ [json_dumps (sendEventJ e)],
        fileOpen := s.fileOpen } (by simpa using hopen)
    rw [h1]
    exact ⟨by simp, h2⟩

/-- C7. Over a session (`start()` then a sequence of events delivered by
the page script's `sendEvent` through the binding): one flushed line is
written per accepted event; every written line parses back (`json.loads`)
to a JSON value carrying the keys `ts`, `type` and `url`; and the file
content after any prefix of the session is a prefix of the final content —
the file is only ever appended to. -/
theorem C7_ndjson_round_trip (evs : List SessionEvent) :
    (runSession evs).fileContent.length = evs.length
    ∧ (∀ l ∈ (runSession evs).fileContent, ∃ v, json_loads l = some v
        ∧ (jLookup "ts" v).isSome = true
        ∧ (jLookup "type" v).isSome = true
        ∧ (jLookup "url" v).isSome = true)
    ∧ (∀ n, ∃ t, (runSession (evs.take n)).fileContent ++ t
        = (runSession evs).fileContent) := by
  have hchar : ∀ l : List SessionEvent, (runSession l).fileContent
      = l.map fun e => json_dumps (sendEventJ e) := by
    intro l
    have h := (session_fileContent l (ActionRecorder.start recorderInit) rfl).1
    simpa [runSession, ActionRecorder.start, recorderInit] using h
  refine ⟨by simp [hchar], ?_, ?_⟩
  · intro l hl
    rw [hchar] at hl
    simp only [List.mem_map] at hl
    obtain ⟨e, he, rfl⟩ := hl
    refine ⟨sendEventJ e, json_loads_dumps _, ?_, ?_, ?_⟩ <;>
      simp [sendEventJ, jLookup, jLookup.lookKvs]
  · intro n
    refine ⟨(evs.drop n).map fun e => json_dumps (sendEventJ e), ?_⟩
    rw [hchar, hchar, ← List.map_append, List.take_append_drop]

/-- Witness for C7 on a one-click session. -/
theorem C7_ndjson_round_trip_witness :
    (runSession [ev0]).fileContent.length = 1
    ∧ (∃ v, json_loads (json_dumps (sendEventJ ev0)) = some v
        ∧ (jLookup "ts" v).isSome = true
        ∧ (jLookup "type" v).isSome = true
        ∧ (jLookup "url" v).isSome = true) := by
  have h := C7_ndjson_round_trip [ev0]
  refine ⟨h.1, ?_⟩
  exact h.2.1 (json_dumps (sendEventJ ev0))
    (by simp [runSession, recorderInit, ActionRecorder.start,
      ActionRecorder.record_action, sessionInput, json_loads_stringify])

/-- C8, counterexample. After `stop()`, a further `record_action` call does
change the recorder's state: the parsed event is still appended to the
in-memory `self.actions` list (which `stop()` returned and `get_summary`
reads), even though nothing further is written to the sink. -/
theorem C8_counterexample :
    ((ActionRecorder.record_action (ActionRecorder.stop (runSession [ev0])).1
        (sessionInput ev0)).actions).length
      ≠ ((ActionRecorder.stop (runSession [ev0])).2).length := by
  have h1 : (runSession [ev0]).actions = [sendEventJ ev0] := by
    simp [runSession, recorderInit, ActionRecorder.start,
      ActionRecorder.record_action, sessionInput, json_loads_stringify]
  simp [ActionRecorder.stop, ActionRecorder.record_action, sessionInput,
    json_loads_stringify, h1]

/-- C8, amended: `stop()` clears the sink handle and returns the
accumulated list; once the sink is closed, a later `record_action` writes
nothing further to the persisted log and leaves the handle cleared — but a
parseable payload is still appended to the in-memory action list, so the
count `get_summary` reports grows. Only the persisted log is protected. -/
theorem C8_stop_clears_sink (s : RecState) (input : String)
    (h : s.fileOpen = false) :
    ((ActionRecorder.stop s).1.fileOpen = false
      ∧ (ActionRecorder.stop s).2 = s.actions)
    ∧ (ActionRecorder.record_action s input).fileContent = s.fileContent
    ∧ (ActionRecorder.record_action s input).fileOpen = false
    ∧ ((ActionRecorder.record_action s input).actions = s.actions
        ∨ ∃ v, json_loads input = some v
            ∧ (ActionRecorder.record_action s input).actions = s.actions ++ [v]
            ∧ (ActionRecorder.get_summary
                (ActionRecorder.record_action s input)).1
              = s.actions.length + 1) := by
  refine ⟨⟨rfl, rfl⟩, ?_, ?_, ?_⟩ <;>
    cases hj : json_loads input <;>
      simp [ActionRecorder.record_action, hj, h, ActionRecorder.get_summary]

/-- Witness for C8's amended theorem at a concrete stopped recorder. -/
theorem C8_stop_clears_sink_witness :
    (ActionRecorder.record_action (ActionRecorder.stop (runSession [ev0])).1
        (sessionInput ev0)).fileContent
      = (ActionRecorder.stop (runSession [ev0])).1.fileContent
    ∧ (ActionRecorder.record_action (ActionRecorder.stop (runSession [ev0])).1
        (sessionInput ev0)).fileOpen = false := by
  have h := C8_stop_clears_sink (ActionRecorder.stop (runSession [ev0])).1
    (sessionInput ev0) rfl
  exact ⟨h.2.1, h.2.2.1⟩

lemma textContent_agree (el : DomNode) (h4 : el.innerText = "") :
    extractorTextContent el = jsSubstring (jsTrim el.textContent) 50 := by
  unfold extractorTextContent
  rw [h4, jsOr_empty, jsOr_empty]

/-- C3, counterexample. For `<button data-test-id="x">` the extractor
produces a `data-test-id`-strategy candidate with selector
`[data-test-id="x"]` (plus a structural fallback), while the recorder's
`getCandidates` produces a single candidate labelled `data-testid` with
selector `[data-testid="x"]`: the two generations are not identical. -/
theorem C3_counterexample :
    getCandidates sampleVariantOnly ≠ extractorCandidates sampleVariantOnly := by
  decide

/-- C3, amended: the recorder's `getCandidates` is not identical to the
extractor's generation — it merges the three `data-test*` variants into one
candidate always labelled `data-testid` with a `[data-testid="..."]`
selector, omits the label-for tier, reads role+name text from `textContent`
only (no `innerText` fallback), appends its css-path (with a different
note) only when no other candidate exists, and never emits xpath. The two
agree exactly on elements outside all those differences: no
`data-test-id`/`data-test` variant value, no associated label, empty
`innerText`, and at least five tier candidates (so the extractor adds no
css-path supplement). -/
theorem C3_generations_agree_on_core (el : DomNode)
    (h1 : jsTruthy el.dataTestIdVar = none)
    (h2 : jsTruthy el.dataTest = none)
    (h3 : getLabelText el = none)
    (h4 : el.innerText = "")
    (h5 : 5 ≤ (extractorBase el).length) :
    getCandidates el = extractorCandidates el := by
  have htid : jsOrO (jsOrO el.dataTestid el.dataTestIdVar) el.dataTest
      = jsTruthy el.dataTestid := by
    cases hdt : jsTruthy el.dataTestid with
    | some v =>
      obtain ⟨hv, _⟩ := jsTruthy_some hdt
      simp [jsOrO, hdt, jsTruthy_some_self hv]
    | none => simp [jsOrO, hdt, h1, h2, show jsTruthy none = none from rfl]
  have hbase : getCandidatesBase el = extractorBase el := by
    simp only [getCandidatesBase, extractorBase, htid, h1, h2, h3,
      textContent_agree el h4, jsOr_empty]
    cases hro : jsTruthy el.role with
    | none => simp
    | some r =>
      by_cases hT : jsTrim el.textContent = ""
      · simp [hT, jsSubstring]
      · have e1 : (jsSubstring (jsTrim el.textContent) 50 = "") = False := by
          simp [jsSubstring_eq_empty_iff (jsTrim el.textContent) 50
            (by norm_num), hT]
        have e2 : (jsSubstring (jsTrim el.textContent) 30 = "") = False := by
          simp [jsSubstring_eq_empty_iff (jsTrim el.textContent) 30
            (by norm_num), hT]
        simp [e1, e2, jsSubstring_substring]
  have hlen0 : ¬(extractorBase el).length = 0 := by omega
  have hcond : ¬(getCssPath el.chain ≠ "" ∧ (extractorBase el).length < 5) :=
    fun hc => absurd hc.2 (by omega)
  simp only [getCandidates, hbase, extractorCandidates]
  rw [if_neg hcond, if_neg hlen0, if_neg hlen0]

/-- Witness for C3's amended theorem at an element carrying data-testid,
id, name, aria-label, role+text and placeholder. -/
theorem C3_generations_agree_on_core_witness :
    getCandidates sampleRich = extractorCandidates sampleRich := by
  exact C3_generations_agree_on_core sampleRich rfl rfl rfl rfl (by decide)
